import Mathlib

/-!
# Verification of the claude-code-lessons citation/decay core

A shallow embedding, in Lean 4, of the lessons system: the path/config
resolution implemented in `src/core/manager.py`, and — for the components
whose implementation is not shipped in `src/` (CitationTracker, DecayEngine,
LogTailer, Aggregator) — models built from the specification's own wording.
Theorems at the end settle the specification's claims against these
definitions.
-/

/-! ## Filesystem paths

Python `pathlib.Path` values are built here either from a raw string
(`Path(s)`) or by the `/` operator joining a child component to a parent
(`p / "name"`). We embed them as an inductive syntax tree, which is all the
code under verification ever does with them.  -/

inductive PyPath where
  | root (s : String)
  | child (parent : PyPath) (name : String)
deriving DecidableEq, Repr

/-! ## `src/core/manager.py` -/

/-- Embedding of Python truthiness for `os.environ.get` results: `None` and
the empty string are falsy, every other string is truthy. -/
def strTruthy : Option String → Bool
  | none => false
  | some s => s ≠ ""

/-- Embedding of Python `a or b` on optional strings: returns `a` when `a`
is truthy, otherwise `b`. -/
def pyOrStr (a b : Option String) : Option String :=
  if strTruthy a then a else b

/-- The process environment as seen by `_get_lessons_base`: the two
environment variables it reads and the home directory. -/
structure Env where
  recall_base : Option String
  lessons_base : Option String
  home : PyPath
deriving DecidableEq, Repr

/-- Embedding of `_get_lessons_base` (src/core/manager.py lines 22-28):
`base_path = os.environ.get("RECALL_BASE") or os.environ.get("LESSONS_BASE")`;
if `base_path` is truthy return `Path(base_path)`, else
`Path.home() / ".config" / "coding-agent-lessons"`. -/
def get_lessons_base (env : Env) : PyPath :=
  let base_path := pyOrStr env.recall_base env.lessons_base
  match base_path with
  | some s =>
      if s ≠ "" then PyPath.root s
      else (env.home.child ".config").child "coding-agent-lessons"
  | none => (env.home.child ".config").child "coding-agent-lessons"

/-- The part of the filesystem `_get_project_data_dir` inspects: whether the
`.recall` and `.coding-agent-lessons` directories exist under the project
root. -/
structure ProjectFs where
  recallExists : Bool
  legacyExists : Bool
deriving DecidableEq, Repr

/-- Embedding of `_get_project_data_dir` (src/core/manager.py lines 31-43):
prefer `project_root / ".recall"` when it exists, else the legacy
`project_root / ".coding-agent-lessons"` when that exists, else default to
`project_root / ".recall"`. -/
def get_project_data_dir (fs : ProjectFs) (project_root : PyPath) : PyPath :=
  let recall_dir := project_root.child ".recall"
  let legacy_dir := project_root.child ".coding-agent-lessons"
  if fs.recallExists then recall_dir
  else if fs.legacyExists then legacy_dir
  else recall_dir

/-- The path-valued fields `LessonsManager.__init__` computes
(src/core/manager.py lines 58-80). -/
structure LessonsManager where
  lessons_base : PyPath
  project_root : PyPath
  system_lessons_file : PyPath
  project_lessons_file : PyPath
  decay_state_file : PyPath
  session_state_dir : PyPath
deriving DecidableEq, Repr

/-- Embedding of `LessonsManager.__init__`: the constructor derives every
path field from `lessons_base` and `project_root` (directory creation is a
filesystem effect outside the model). -/
def LessonsManager.init (fs : ProjectFs) (lessons_base project_root : PyPath) :
    LessonsManager :=
  let project_data_dir := get_project_data_dir fs project_root
  { lessons_base := lessons_base
    project_root := project_root
    system_lessons_file := lessons_base.child "LESSONS.md"
    project_lessons_file := project_data_dir.child "LESSONS.md"
    decay_state_file := lessons_base.child ".decay-last-run"
    session_state_dir := lessons_base.child ".citation-state" }

/-! ## Lessons, citation tracking and decay

The CitationTracker and DecayEngine implementations are not part of the
visible source slice (only `LessonsManager.__init__`, which wires up their
state paths, is); the definitions below are modelled from the specification
(sections 3, 4.2 and 4.3). -/

/-- Modelled from the spec: lesson tier/status, `active | decayed | promoted`
(section 3, Lesson attributes). -/
inductive Tier where
  | active
  | decayed
  | promoted
deriving DecidableEq, Repr

/-- Modelled from the spec: a persisted lesson's usage metadata — identifier,
creation timestamp, nullable last-cited timestamp, non-negative total
citation count, tier (section 3, Lesson). Timestamps are naturals. -/
structure Lesson where
  id : String
  created : Nat
  lastCited : Option Nat
  count : Nat
  tier : Tier
deriving DecidableEq, Repr

/-- Modelled from the spec: CitationTracker state — the lesson store's usage
metadata plus the per-session credited sets, held as a list of
(session identifier, lesson identifier) pairs (sections 3 and 4.2); the
CitationTracker implementation is absent from src/. -/
structure TrackerState where
  lessons : List Lesson
  credited : List (String × String)
deriving DecidableEq, Repr

/-- The lesson's total citation count as stored, `0` for an unknown id. -/
def getCount (lessons : List Lesson) (l : String) : Nat :=
  match lessons.find? (fun x => x.id == l) with
  | some x => x.count
  | none => 0

/-- Credit one citation to lesson `l` at time `t`: increment its total count
and update its last-cited timestamp. -/
def citeLesson (lessons : List Lesson) (l : String) (t : Nat) : List Lesson :=
  lessons.map fun x =>
    if x.id == l then { x with count := x.count + 1, lastCited := some t } else x

/-- Modelled from the spec: `recordCitation(sessionId, lessonId, timestamp)`
(section 4.2) — if `lessonId` is not yet in `sessionId`'s credited set,
increment the lesson's total count, update its last-cited timestamp, add the
pair to the credited set and return the new count; if already credited this
session, return the existing count unchanged (no-op, not an error). -/
def recordCitation (st : TrackerState) (s l : String) (t : Nat) :
    TrackerState × Nat :=
  if st.credited.contains (s, l) then
    (st, getCount st.lessons l)
  else
    let lessons := citeLesson st.lessons l t
    ({ lessons := lessons, credited := (s, l) :: st.credited },
     getCount lessons l)

/-- Modelled from the spec: DecayEngine configuration — minimum interval
between scans, decay threshold age, promotion threshold count and lookback
window (sections 4.3 and 6, configuration surface); the DecayEngine
implementation is absent from src/. -/
structure DecayConfig where
  minInterval : Nat
  decayThreshold : Nat
  promotionThreshold : Nat
  lookbackWindow : Nat
deriving DecidableEq, Repr

/-- Modelled from the spec: DecayState — the persisted last-run timestamp,
`none` before the first scan (section 3, DecayState). -/
structure DecayState where
  lastRun : Option Nat
deriving DecidableEq, Repr

/-- A lesson's last-cited timestamp, or its creation timestamp if never
cited (spec section 4.3, step 2). -/
def lastActivity (x : Lesson) : Nat :=
  x.lastCited.getD x.created

/-- Modelled from the spec: the promotion condition — the lesson's citation
count crossed the promotion threshold within the lookback window, read as:
count at or above the threshold with its last activity no older than the
window (section 4.3, step 3). -/
def promoCond (cfg : DecayConfig) (now : Nat) (x : Lesson) : Bool :=
  cfg.promotionThreshold ≤ x.count && now ≤ lastActivity x + cfg.lookbackWindow

/-- Modelled from the spec: the decay condition — tier is `active` and the
last-cited (or creation) timestamp is older than the decay threshold
(section 4.3, step 2). -/
def decayCond (cfg : DecayConfig) (now : Nat) (x : Lesson) : Bool :=
  x.tier == Tier.active && lastActivity x + cfg.decayThreshold < now

/-- Modelled from the spec: one lesson's tier transition in a due scan;
promotion takes precedence when both conditions hold (section 4.3,
steps 2-3). -/
def decayStep (cfg : DecayConfig) (now : Nat) (x : Lesson) : Lesson :=
  if promoCond cfg now x then { x with tier := Tier.promoted }
  else if decayCond cfg now x then { x with tier := Tier.decayed }
  else x

/-- Modelled from the spec: the `runIfDue` guard — due when there is no
recorded last run, or `now` has reached the persisted last-run timestamp plus
the configured minimum interval (section 4.3). -/
def decayDue (cfg : DecayConfig) (ds : DecayState) (now : Nat) : Bool :=
  match ds.lastRun with
  | none => true
  | some t => t + cfg.minInterval ≤ now

/-- Modelled from the spec: `runIfDue(now)` (section 4.3) — if not due,
return immediately (no-op); if due, re-tier every lesson by `decayStep` and
write `now` as the new last-run timestamp. The DecayEngine implementation is
absent from src/. -/
def runIfDue (cfg : DecayConfig) (ds : DecayState) (lessons : List Lesson)
    (now : Nat) : DecayState × List Lesson :=
  if decayDue cfg ds now then
    (⟨some now⟩, lessons.map (decayStep cfg now))
  else
    (ds, lessons)

/-! ## Log tailing

Modelled from the spec (section 4.1): the LogTailer implementation is absent
from src/. A log file is a character sequence plus an identity (standing for
the inode/creation time the spec says the tailer compares). -/

/-- Modelled from the spec: the tailed file — its identity and content. -/
structure LogFile where
  id : Nat
  content : List Char
deriving DecidableEq, Repr

/-- Modelled from the spec: tailer state between polls — the read offset,
the last known size, and the identity of the file last read. -/
structure TailerState where
  offset : Nat
  lastSize : Nat
  fileId : Nat
deriving DecidableEq, Repr

/-- Modelled from the spec: what one poll emits downstream — a parsed-line
record, or the discontinuity marker signalled on rotation/truncation. -/
inductive TailEvent where
  | record (line : List Char)
  | discontinuity
deriving DecidableEq, Repr

/-- Split a character sequence into its complete (newline-terminated) lines
and the number of characters they consume; a trailing unterminated line is
neither returned nor counted. `buf` holds the current line read so far,
in reverse. -/
def completeLinesAux (buf : List Char) : List Char → List (List Char) × Nat
  | [] => ([], 0)
  | c :: rest =>
      if c = '\n' then
        let r := completeLinesAux [] rest
        (buf.reverse :: r.1, buf.length + 1 + r.2)
      else
        completeLinesAux (c :: buf) rest

/-- The complete lines of a character sequence and the bytes they consume. -/
def completeLines (cs : List Char) : List (List Char) × Nat :=
  completeLinesAux [] cs

/-- Modelled from the spec: one poll of the LogTailer (section 4.1). If the
file's identity changed or it shrank below the last known size, treat as
rotation: reset the offset to 0, signal a discontinuity event, and resume
reading from the new file. Otherwise read only the newly appended complete
lines past the offset; an unterminated trailing line is left for the next
poll, never emitted partially. -/
def poll (st : TailerState) (f : LogFile) : TailerState × List TailEvent :=
  if f.id ≠ st.fileId ∨ f.content.length < st.lastSize then
    let r := completeLines f.content
    ({ offset := r.2, lastSize := f.content.length, fileId := f.id },
     TailEvent.discontinuity :: r.1.map TailEvent.record)
  else
    let newData := f.content.drop st.offset
    let r := completeLines newData
    ({ offset := st.offset + r.2, lastSize := f.content.length,
       fileId := st.fileId },
     r.1.map TailEvent.record)

/-- A list of lines joined into file content, each line newline-terminated. -/
def joinLines : List (List Char) → List Char
  | [] => []
  | l :: ls => l ++ '\n' :: joinLines ls

/-! ## Aggregation

Modelled from the spec (sections 4.4 and 6): the Aggregator implementation is
absent from src/. Hook durations in milliseconds are carried in tenths of a
millisecond so that the embedding stays in exact integer arithmetic
(45.5 ms = 455). -/

/-- Modelled from the spec: one structured entry of the event log, a tagged
variant over the enumerated kinds with their kind-specific fields
(section 3, EventRecord; section 9, design note on kind dispatch). -/
inductive EventRecord where
  | session_start (sessionId : String) (totalLessons : Nat)
  | citation (sessionId : String) (lessonId : String)
      (usesBefore usesAfter : Nat)
  | hook_end (sessionId : String) (hook : String) (totalTenthsMs : Nat)
deriving DecidableEq, Repr

/-- Modelled from the spec: the Aggregator's derived state — the session
registry (session id to declared lesson count), observed citations as
(session, lesson) pairs, and hook timings by hook name (section 4.4). -/
structure AggState where
  sessions : List (String × Nat)
  citations : List (String × String)
  hookTimings : List (String × Nat)
deriving DecidableEq, Repr

/-- Insert-or-update a session registry entry, keyed by session id. -/
def upsertSession (sessions : List (String × Nat)) (sid : String) (n : Nat) :
    List (String × Nat) :=
  if sessions.any (fun p => p.1 == sid) then
    sessions.map fun p => if p.1 == sid then (p.1, n) else p
  else
    sessions ++ [(sid, n)]

/-- Modelled from the spec: how one event record updates the Aggregator's
state (section 4.4). -/
def applyEvent (st : AggState) (e : EventRecord) : AggState :=
  match e with
  | .session_start sid total =>
      { st with sessions := upsertSession st.sessions sid total }
  | .citation sid lid _ _ =>
      { st with citations := st.citations ++ [(sid, lid)] }
  | .hook_end _ hook ms =>
      { st with hookTimings := st.hookTimings ++ [(hook, ms)] }

/-- Modelled from the spec: cold-start replay — rebuild state by folding the
entire log from offset 0 over an empty state (section 4.4). -/
def replay (events : List EventRecord) : AggState :=
  events.foldl applyEvent ⟨[], [], []⟩

/-- Modelled from the spec: the session count reported by
`getHealthSummary()` (section 6). -/
def healthSessionCount (st : AggState) : Nat :=
  st.sessions.length

/-- Modelled from the spec: how many times `getSessionSummary(sessionId)`
reports lesson `lid` as cited in that session (section 6). -/
def sessionCitationCount (st : AggState) (sid lid : String) : Nat :=
  (st.citations.filter fun p => p.1 == sid && p.2 == lid).length

/-- The three-record log of the replay scenario: `session_start` for session
`test-123` with 5 total lessons, a `citation` of lesson `L001` with
uses_before 5 and uses_after 6, and a `hook_end` for hook `SessionStart`
with total_ms 45.5. -/
def scenarioLog : List EventRecord :=
  [ EventRecord.session_start "test-123" 5,
    EventRecord.citation "test-123" "L001" 5 6,
    EventRecord.hook_end "test-123" "SessionStart" 455 ]

/-! ## Persistence failure handling

Modelled from the spec (section 7, case d): a write of citation state or
decay state may fail (disk full, permission denied); the failure is fatal for
that write and reported to the caller, and the in-memory state is left
unchanged so a retry is safe. The persistence layer is absent from src/; a
boolean stands for whether the underlying write succeeds. -/

/-- Modelled from the spec: `recordCitation` with its state write — on write
failure the caller gets an error and the state is left unchanged; on success
the updated state and the new count. -/
def recordCitationChecked (writeOk : Bool) (st : TrackerState)
    (s l : String) (t : Nat) : TrackerState × Except String Nat :=
  let r := recordCitation st s l t
  if writeOk then (r.1, Except.ok r.2)
  else (st, Except.error "persistence failure")

/-- Modelled from the spec: `runIfDue` with its decay-state and tier writes —
on write failure the caller gets an error and both the decay state and the
lesson tiers are left unchanged. -/
def runIfDueChecked (writeOk : Bool) (cfg : DecayConfig) (ds : DecayState)
    (lessons : List Lesson) (now : Nat) :
    (DecayState × List Lesson) × Except String Unit :=
  let r := runIfDue cfg ds lessons now
  if writeOk then (r, Except.ok ())
  else ((ds, lessons), Except.error "persistence failure")

/-! ## Claim theorems: path resolution -/

/-- A restatement of claim C9 in the claim's own words: `RECALL_BASE` wins
when set non-empty, else `LESSONS_BASE` when set non-empty, else the home
config directory; an empty string counts as unset. Compared below with the
embedding of the source. -/
def lessons_base_described (env : Env) : PyPath :=
  let norm : Option String → Option String := fun o =>
    match o with
    | some s => if s = "" then none else some s
    | none => none
  match norm env.recall_base with
  | some s => PyPath.root s
  | none =>
      match norm env.lessons_base with
      | some t => PyPath.root t
      | none => (env.home.child ".config").child "coding-agent-lessons"

/-- C9: `_get_lessons_base` returns `Path(RECALL_BASE)` when that variable is
set to a non-empty string, otherwise `Path(LESSONS_BASE)` when that is set to
a non-empty string, otherwise `home/.config/coding-agent-lessons`; an
empty-string `RECALL_BASE` is treated as unset. -/
theorem get_lessons_base_correct (env : Env) :
    get_lessons_base env = lessons_base_described env := by
  rcases env with ⟨rb, lb, home⟩
  rcases rb with _ | s
  · rcases lb with _ | t
    · rfl
    · by_cases ht : t = "" <;>
        simp [get_lessons_base, lessons_base_described, pyOrStr, strTruthy, ht]
  · by_cases hs : s = ""
    · rcases lb with _ | t
      · simp [get_lessons_base, lessons_base_described, pyOrStr, strTruthy, hs]
      · by_cases ht : t = "" <;>
          simp [get_lessons_base, lessons_base_described, pyOrStr, strTruthy, hs, ht]
    · simp [get_lessons_base, lessons_base_described, pyOrStr, strTruthy, hs]

/-- C10: `_get_project_data_dir` returns `project_root/".recall"` whenever
that directory exists (even if the legacy one also exists); the legacy
directory only when it exists and `.recall` does not; and `.recall` again
when neither exists, so a fresh project never gets the legacy directory. -/
theorem get_project_data_dir_correct (fs : ProjectFs) (project_root : PyPath) :
    (fs.recallExists = true →
      get_project_data_dir fs project_root = project_root.child ".recall") ∧
    (fs.recallExists = false → fs.legacyExists = true →
      get_project_data_dir fs project_root =
        project_root.child ".coding-agent-lessons") ∧
    (fs.recallExists = false → fs.legacyExists = false →
      get_project_data_dir fs project_root = project_root.child ".recall") := by
  refine ⟨fun h => ?_, fun h h' => ?_, fun h h' => ?_⟩ <;>
    simp [get_project_data_dir, h, *]

/-- Witness for C10 at a concrete input: only the legacy directory exists,
so it is chosen. -/
theorem get_project_data_dir_correct_witness :
    get_project_data_dir ⟨false, true⟩ (PyPath.root "/p") =
      (PyPath.root "/p").child ".coding-agent-lessons" :=
  (get_project_data_dir_correct ⟨false, true⟩ (PyPath.root "/p")).2.1 rfl rfl

/-- C8: the decay-state marker and the per-session citation-state directory
sit at `lessons_base/".decay-last-run"` and `lessons_base/".citation-state"`,
and both are independent of `project_root` (and of which project data
directories exist). -/
theorem manager_state_paths (fs fs' : ProjectFs)
    (lessons_base project_root project_root' : PyPath) :
    (LessonsManager.init fs lessons_base project_root).decay_state_file =
        lessons_base.child ".decay-last-run" ∧
    (LessonsManager.init fs lessons_base project_root).session_state_dir =
        lessons_base.child ".citation-state" ∧
    (LessonsManager.init fs lessons_base project_root).decay_state_file =
        (LessonsManager.init fs' lessons_base project_root').decay_state_file ∧
    (LessonsManager.init fs lessons_base project_root).session_state_dir =
        (LessonsManager.init fs' lessons_base project_root').session_state_dir :=
  ⟨rfl, rfl, rfl, rfl⟩

/-! ## Claim theorems: citation tracking -/

theorem getCount_citeLesson (lessons : List Lesson) (l : String) (t : Nat)
    (hmem : ∃ x ∈ lessons, x.id = l) :
    getCount (citeLesson lessons l t) l = getCount lessons l + 1 := by
  induction lessons with
  | nil => simp at hmem
  | cons x xs ih =>
      by_cases hx : x.id = l
      · simp [citeLesson, getCount, hx]
      · rcases hmem with ⟨y, hy, hyl⟩
        rcases List.mem_cons.mp hy with rfl | hy'
        · exact absurd hyl hx
        · have h := ih ⟨y, hy', hyl⟩
          simpa [citeLesson, getCount, hx] using h

/-- C1: for a (session, lesson) pair not yet credited, two successive
`recordCitation` calls increment the lesson's total count exactly once: the
first call returns the incremented count and adds the pair to the credited
set, and the second call is a no-op returning the same state and the same
existing count. -/
theorem recordCitation_twice (st : TrackerState) (s l : String) (t1 t2 : Nat)
    (hfresh : st.credited.contains (s, l) = false)
    (hmem : ∃ x ∈ st.lessons, x.id = l) :
    (recordCitation st s l t1).2 = getCount st.lessons l + 1 ∧
    (s, l) ∈ (recordCitation st s l t1).1.credited ∧
    getCount (recordCitation st s l t1).1.lessons l =
      getCount st.lessons l + 1 ∧
    recordCitation (recordCitation st s l t1).1 s l t2 =
      recordCitation st s l t1 := by
  have hf : ¬ ((s, l) ∈ st.credited) := by
    simpa using hfresh
  have h1 : recordCitation st s l t1 =
      ({ lessons := citeLesson st.lessons l t1,
         credited := (s, l) :: st.credited },
       getCount (citeLesson st.lessons l t1) l) := by
    simp [recordCitation, hf]
  refine ⟨?_, ?_, ?_, ?_⟩
  · rw [h1]
    exact getCount_citeLesson st.lessons l t1 hmem
  · rw [h1]
    exact List.mem_cons_self _ _
  · rw [h1]
    exact getCount_citeLesson st.lessons l t1 hmem
  · rw [h1]
    simp [recordCitation]

/-- Witness for C1: a store holding lesson `L001` with count 5 and an empty
credited set; the double call yields count 6 once. -/
theorem recordCitation_twice_witness :
    (recordCitation ⟨[⟨"L001", 0, none, 5, Tier.active⟩], []⟩
        "test-123" "L001" 10).2 =
      getCount [⟨"L001", 0, none, 5, Tier.active⟩] "L001" + 1 ∧
    ("test-123", "L001") ∈
      (recordCitation ⟨[⟨"L001", 0, none, 5, Tier.active⟩], []⟩
        "test-123" "L001" 10).1.credited ∧
    getCount (recordCitation ⟨[⟨"L001", 0, none, 5, Tier.active⟩], []⟩
        "test-123" "L001" 10).1.lessons "L001" =
      getCount [⟨"L001", 0, none, 5, Tier.active⟩] "L001" + 1 ∧
    recordCitation
        (recordCitation ⟨[⟨"L001", 0, none, 5, Tier.active⟩], []⟩
          "test-123" "L001" 10).1 "test-123" "L001" 20 =
      recordCitation ⟨[⟨"L001", 0, none, 5, Tier.active⟩], []⟩
        "test-123" "L001" 10 :=
  recordCitation_twice ⟨[⟨"L001", 0, none, 5, Tier.active⟩], []⟩
    "test-123" "L001" 10 20 (by decide) (by decide)

/-! ## Claim theorems: decay engine -/

/-- C2: when a due `runIfDue` executes at time `n1`, a second invocation at
any `n2` within the configured minimum interval after `n1` is a no-op: it
returns the decay state and the lessons (hence every tier) unchanged, guarded
by the persisted last-run timestamp plus the interval. -/
theorem runIfDue_second_noop (cfg : DecayConfig) (ds : DecayState)
    (lessons : List Lesson) (n1 n2 : Nat)
    (hdue : decayDue cfg ds n1 = true)
    (hwithin : n2 < n1 + cfg.minInterval) :
    runIfDue cfg (runIfDue cfg ds lessons n1).1
        (runIfDue cfg ds lessons n1).2 n2 =
      runIfDue cfg ds lessons n1 := by
  have h1 : runIfDue cfg ds lessons n1 =
      (⟨some n1⟩, lessons.map (decayStep cfg n1)) := by
    simp [runIfDue, hdue]
  rw [h1]
  have h2 : decayDue cfg ⟨some n1⟩ n2 = false := by
    simp [decayDue]
    omega
  simp [runIfDue, h2]

/-- Witness for C2: a never-run engine runs at time 100 with a 10-unit
interval; a second invocation at 105 changes nothing. -/
theorem runIfDue_second_noop_witness :
    runIfDue ⟨10, 30, 5, 20⟩
        (runIfDue ⟨10, 30, 5, 20⟩ ⟨none⟩
          [⟨"L1", 0, some 50, 1, Tier.active⟩] 100).1
        (runIfDue ⟨10, 30, 5, 20⟩ ⟨none⟩
          [⟨"L1", 0, some 50, 1, Tier.active⟩] 100).2 105 =
      runIfDue ⟨10, 30, 5, 20⟩ ⟨none⟩
        [⟨"L1", 0, some 50, 1, Tier.active⟩] 100 :=
  runIfDue_second_noop ⟨10, 30, 5, 20⟩ ⟨none⟩
    [⟨"L1", 0, some 50, 1, Tier.active⟩] 100 105 (by decide) (by decide)

/-- C3: in a due run at `T + decayThreshold + 1`, an `active` lesson last
cited at `T` ends up in the run's output re-tiered to `decayed`, unless the
promotion condition (count crossed the threshold within the lookback window)
holds for it, in which case it is `promoted` — promotion taking precedence
when both conditions hold. -/
theorem runIfDue_decays_or_promotes (cfg : DecayConfig) (ds : DecayState)
    (lessons : List Lesson) (x : Lesson) (T : Nat)
    (hdue : decayDue cfg ds (T + cfg.decayThreshold + 1) = true)
    (hx : x ∈ lessons) (hactive : x.tier = Tier.active)
    (hcited : x.lastCited = some T) :
    decayStep cfg (T + cfg.decayThreshold + 1) x ∈
      (runIfDue cfg ds lessons (T + cfg.decayThreshold + 1)).2 ∧
    (decayStep cfg (T + cfg.decayThreshold + 1) x).tier =
      (if promoCond cfg (T + cfg.decayThreshold + 1) x then Tier.promoted
       else Tier.decayed) := by
  constructor
  · simp [runIfDue, hdue]
    exact ⟨x, hx, rfl⟩
  · by_cases hp : promoCond cfg (T + cfg.decayThreshold + 1) x = true
    · simp [decayStep, hp]
    · have hd : decayCond cfg (T + cfg.decayThreshold + 1) x = true := by
        simp [decayCond, hactive, lastActivity, hcited]
      simp [decayStep, hp, hd]

/-- Witness for C3: an active lesson last cited at 50 with count 1 is below
the promotion threshold 5, so a due run at 50 + 30 + 1 decays it. -/
theorem runIfDue_decays_or_promotes_witness :
    decayStep ⟨10, 30, 5, 20⟩ (50 + 30 + 1)
        ⟨"L1", 0, some 50, 1, Tier.active⟩ ∈
      (runIfDue ⟨10, 30, 5, 20⟩ ⟨none⟩
        [⟨"L1", 0, some 50, 1, Tier.active⟩] (50 + 30 + 1)).2 ∧
    (decayStep ⟨10, 30, 5, 20⟩ (50 + 30 + 1)
        ⟨"L1", 0, some 50, 1, Tier.active⟩).tier =
      (if promoCond ⟨10, 30, 5, 20⟩ (50 + 30 + 1)
          ⟨"L1", 0, some 50, 1, Tier.active⟩ then Tier.promoted
       else Tier.decayed) :=
  runIfDue_decays_or_promotes ⟨10, 30, 5, 20⟩ ⟨none⟩
    [⟨"L1", 0, some 50, 1, Tier.active⟩] ⟨"L1", 0, some 50, 1, Tier.active⟩
    50 (by decide) (by decide) rfl rfl

/-! ## Claim theorems: log tailing -/

theorem completeLinesAux_nonewline (p : List Char) (hp : '\n' ∉ p)
    (buf : List Char) : completeLinesAux buf p = ([], 0) := by
  induction p generalizing buf with
  | nil => rfl
  | cons c p' ih =>
      simp only [List.mem_cons, not_or] at hp
      have hc : ¬ (c = '\n') := fun h => hp.1 h.symm
      simp only [completeLinesAux, hc, if_false]
      exact ih hp.2 (c :: buf)

theorem completeLinesAux_line (l : List Char) (hl : '\n' ∉ l)
    (buf rest : List Char) :
    completeLinesAux buf (l ++ '\n' :: rest) =
      ((buf.reverse ++ l) :: (completeLinesAux [] rest).1,
       buf.length + l.length + 1 + (completeLinesAux [] rest).2) := by
  induction l generalizing buf with
  | nil => simp [completeLinesAux]
  | cons c l' ih =>
      simp only [List.mem_cons, not_or] at hl
      have hc : ¬ (c = '\n') := fun h => hl.1 h.symm
      have hstep : completeLinesAux buf ((c :: l') ++ '\n' :: rest) =
          completeLinesAux (c :: buf) (l' ++ '\n' :: rest) := by
        simp [completeLinesAux, hc]
      rw [hstep, ih hl.2 (c :: buf)]
      simp only [Prod.mk.injEq, List.reverse_cons, List.append_assoc,
        List.singleton_append, List.length_cons]
      exact ⟨trivial, by omega⟩

theorem completeLines_joinLines (lines : List (List Char))
    (h : ∀ l ∈ lines, '\n' ∉ l) :
    completeLines (joinLines lines) = (lines, (joinLines lines).length) := by
  induction lines with
  | nil => rfl
  | cons l ls ih =>
      have hl : '\n' ∉ l := h l (List.mem_cons_self l ls)
      have hrec := ih (fun x hx => h x (List.mem_cons_of_mem l hx))
      simp only [completeLines] at hrec ⊢
      simp only [joinLines]
      rw [completeLinesAux_line l hl [] (joinLines ls), hrec]
      simp only [Prod.mk.injEq, List.reverse_nil, List.nil_append,
        List.length_nil, List.length_append, List.length_cons]
      exact ⟨trivial, by omega⟩

theorem poll_steady (st : TailerState) (f : LogFile)
    (hid : f.id = st.fileId) (hsize : st.lastSize ≤ f.content.length) :
    poll st f =
      ({ offset := st.offset + (completeLines (f.content.drop st.offset)).2,
         lastSize := f.content.length, fileId := st.fileId },
       (completeLines (f.content.drop st.offset)).1.map TailEvent.record) := by
  have hcond : ¬ (f.id ≠ st.fileId ∨ f.content.length < st.lastSize) := by
    rintro (h | h)
    · exact h hid
    · omega
  simp [poll, hcond]

theorem poll_rotated (st : TailerState) (f : LogFile)
    (h : f.id ≠ st.fileId ∨ f.content.length < st.lastSize) :
    poll st f =
      ({ offset := (completeLines f.content).2,
         lastSize := f.content.length, fileId := f.id },
       TailEvent.discontinuity ::
         (completeLines f.content).1.map TailEvent.record) := by
  simp [poll, h]

/-- C4: starting from a fresh tailer, polling a log of `N` complete
newline-terminated lines emits exactly those `N` records; polling again after
a partial (unterminated) line is appended emits nothing — the partial line is
buffered, never emitted; polling once more after the line is terminated emits
exactly the one new record. -/
theorem tailer_buffers_incomplete_line (lines : List (List Char))
    (p : List Char) (hl : ∀ l ∈ lines, '\n' ∉ l) (hp : '\n' ∉ p) :
    (poll ⟨0, 0, 0⟩ ⟨0, joinLines lines⟩).2 = lines.map TailEvent.record ∧
    (poll (poll ⟨0, 0, 0⟩ ⟨0, joinLines lines⟩).1
        ⟨0, joinLines lines ++ p⟩).2 = [] ∧
    (poll (poll (poll ⟨0, 0, 0⟩ ⟨0, joinLines lines⟩).1
          ⟨0, joinLines lines ++ p⟩).1
        ⟨0, joinLines lines ++ (p ++ [Char.ofNat 10])⟩).2 =
      [TailEvent.record p] := by
  have hcl := completeLines_joinLines lines hl
  have hnl : (Char.ofNat 10) = '\n' := rfl
  have h1 : poll ⟨0, 0, 0⟩ ⟨0, joinLines lines⟩ =
      (⟨(joinLines lines).length, (joinLines lines).length, 0⟩,
       lines.map TailEvent.record) := by
    rw [poll_steady ⟨0, 0, 0⟩ ⟨0, joinLines lines⟩ rfl (Nat.zero_le _)]
    simp [hcl]
  have hdrop : (joinLines lines ++ p).drop (joinLines lines).length = p :=
    List.drop_left (joinLines lines) p
  have hcp : completeLines p = ([], 0) :=
    completeLinesAux_nonewline p hp []
  have h2 : poll ⟨(joinLines lines).length, (joinLines lines).length, 0⟩
      ⟨0, joinLines lines ++ p⟩ =
      (⟨(joinLines lines).length, (joinLines lines ++ p).length, 0⟩, []) := by
    rw [poll_steady ⟨(joinLines lines).length, (joinLines lines).length, 0⟩
      ⟨0, joinLines lines ++ p⟩ rfl (by simp)]
    simp [hdrop, hcp]
  have hdrop3 : (joinLines lines ++ (p ++ ['\n'])).drop
      (joinLines lines).length = p ++ ['\n'] :=
    List.drop_left (joinLines lines) (p ++ ['\n'])
  have hfinal : completeLines (p ++ ['\n']) = ([p], p.length + 1) := by
    have h := completeLinesAux_line p hp [] []
    simp only [completeLines]
    rw [h]
    simp [completeLinesAux]
  refine ⟨by rw [h1], by rw [h1, h2], ?_⟩
  rw [h1, h2, hnl]
  rw [poll_steady ⟨(joinLines lines).length, (joinLines lines ++ p).length, 0⟩
    ⟨0, joinLines lines ++ (p ++ ['\n'])⟩ rfl (by simp)]
  simp [hdrop3, hfinal]

/-- Witness for C4: two one-character lines, then a partial third line
completed on the final poll. -/
theorem tailer_buffers_incomplete_line_witness :
    (poll ⟨0, 0, 0⟩ ⟨0, joinLines [['a'], ['b']]⟩).2 =
      [['a'], ['b']].map TailEvent.record ∧
    (poll (poll ⟨0, 0, 0⟩ ⟨0, joinLines [['a'], ['b']]⟩).1
        ⟨0, joinLines [['a'], ['b']] ++ ['c']⟩).2 = [] ∧
    (poll (poll (poll ⟨0, 0, 0⟩ ⟨0, joinLines [['a'], ['b']]⟩).1
          ⟨0, joinLines [['a'], ['b']] ++ ['c']⟩).1
        ⟨0, joinLines [['a'], ['b']] ++ (['c'] ++ [Char.ofNat 10])⟩).2 =
      [TailEvent.record ['c']] :=
  tailer_buffers_incomplete_line [['a'], ['b']] ['c'] (by decide) (by decide)

/-- C5: with a tail in progress over a fully-read old log, replacing the file
with a shorter one (same identity) — or with one of a different identity —
is detected as rotation: the poll emits the discontinuity marker followed by
exactly the new file's complete lines read from offset 0 (no record of the
old file is re-emitted past the marker), and the tailer's state resumes on
the new file with the offset advanced only over the new content. -/
theorem tailer_truncation_recovery (oldLines newLines : List (List Char))
    (hold : ∀ l ∈ oldLines, '\n' ∉ l) (hnew : ∀ l ∈ newLines, '\n' ∉ l)
    (hshrink : (joinLines newLines).length < (joinLines oldLines).length) :
    (poll ⟨0, 0, 0⟩ ⟨0, joinLines oldLines⟩).2 =
      oldLines.map TailEvent.record ∧
    (poll (poll ⟨0, 0, 0⟩ ⟨0, joinLines oldLines⟩).1
        ⟨0, joinLines newLines⟩).2 =
      TailEvent.discontinuity :: newLines.map TailEvent.record ∧
    (poll (poll ⟨0, 0, 0⟩ ⟨0, joinLines oldLines⟩).1
        ⟨0, joinLines newLines⟩).1 =
      ⟨(joinLines newLines).length, (joinLines newLines).length, 0⟩ ∧
    (poll (poll ⟨0, 0, 0⟩ ⟨0, joinLines oldLines⟩).1
        ⟨1, joinLines newLines⟩).2 =
      TailEvent.discontinuity :: newLines.map TailEvent.record := by
  have hclo := completeLines_joinLines oldLines hold
  have hcln := completeLines_joinLines newLines hnew
  have h1 : poll ⟨0, 0, 0⟩ ⟨0, joinLines oldLines⟩ =
      (⟨(joinLines oldLines).length, (joinLines oldLines).length, 0⟩,
       oldLines.map TailEvent.record) := by
    rw [poll_steady ⟨0, 0, 0⟩ ⟨0, joinLines oldLines⟩ rfl (Nat.zero_le _)]
    simp [hclo]
  have h2 := poll_rotated
    ⟨(joinLines oldLines).length, (joinLines oldLines).length, 0⟩
    ⟨0, joinLines newLines⟩ (Or.inr hshrink)
  have h3 := poll_rotated
    ⟨(joinLines oldLines).length, (joinLines oldLines).length, 0⟩
    ⟨1, joinLines newLines⟩ (Or.inl (by simp))
  refine ⟨by rw [h1], ?_, ?_, ?_⟩
  · rw [h1, h2, hcln]
  · rw [h1, h2, hcln]
  · rw [h1, h3, hcln]

/-- Witness for C5: two old records, then the file is replaced by a shorter
single-record one; the poll yields the discontinuity marker plus that one
record, and a state at the new file's end. -/
theorem tailer_truncation_recovery_witness :
    (poll ⟨0, 0, 0⟩ ⟨0, joinLines [['a'], ['b']]⟩).2 =
      [['a'], ['b']].map TailEvent.record ∧
    (poll (poll ⟨0, 0, 0⟩ ⟨0, joinLines [['a'], ['b']]⟩).1
        ⟨0, joinLines [['c']]⟩).2 =
      TailEvent.discontinuity :: [['c']].map TailEvent.record ∧
    (poll (poll ⟨0, 0, 0⟩ ⟨0, joinLines [['a'], ['b']]⟩).1
        ⟨0, joinLines [['c']]⟩).1 =
      ⟨(joinLines [['c']]).length, (joinLines [['c']]).length, 0⟩ ∧
    (poll (poll ⟨0, 0, 0⟩ ⟨0, joinLines [['a'], ['b']]⟩).1
        ⟨1, joinLines [['c']]⟩).2 =
      TailEvent.discontinuity :: [['c']].map TailEvent.record :=
  tailer_truncation_recovery [['a'], ['b']] [['c']]
    (by decide) (by decide) (by decide)

/-! ## Claim theorems: aggregation and persistence -/

/-- C6: replaying the three-record scenario log from offset 0 yields a state
where the health summary's session count is at least 1 and the session
summary for `test-123` reports the `L001` citation recorded exactly once. -/
theorem aggregator_cold_start_scenario :
    1 ≤ healthSessionCount (replay scenarioLog) ∧
    sessionCitationCount (replay scenarioLog) "test-123" "L001" = 1 := by
  decide

/-- C7: when the underlying write fails, `recordCitation` and `runIfDue`
report the failure to the caller and leave the in-memory state unchanged;
retrying with a succeeding write produces exactly the state and result a
first-time success would, so a retry is safe. -/
theorem persistence_failure_atomic (st : TrackerState) (s l : String)
    (t : Nat) (cfg : DecayConfig) (ds : DecayState) (lessons : List Lesson)
    (now : Nat) :
    (recordCitationChecked false st s l t).1 = st ∧
    (recordCitationChecked false st s l t).2 =
      Except.error "persistence failure" ∧
    recordCitationChecked true st s l t =
      ((recordCitation st s l t).1, Except.ok (recordCitation st s l t).2) ∧
    (runIfDueChecked false cfg ds lessons now).1 = (ds, lessons) ∧
    (runIfDueChecked false cfg ds lessons now).2 =
      Except.error "persistence failure" ∧
    runIfDueChecked true cfg ds lessons now =
      (runIfDue cfg ds lessons now, Except.ok ()) :=
  ⟨rfl, rfl, rfl, rfl, rfl, rfl⟩
